import Mathlib

/-!
Verification development for the eCommProductScraper repository.

The Python sources (`app.py` and
`walmart_scraper/walmart_scraper/spiders/walmart.py`) are shallowly
embedded below: dictionaries of extracted product fields become the
`ProductC` structure, Python truthiness of the relevant field types is
made explicit, prices are modelled as rationals, `float("inf")` as
`Option ℚ` with `none` standing for the absent upper bound, and each
regular-expression search of the source is translated into a dedicated
leftmost-match scanner over character lists.  Stateful loops (the
spider's parse loops, the Flask app's attempt loop) become structurally
recursive functions over explicit state.
-/

namespace Scraper

/-! ## Basic string utilities shared by the embedded functions -/

/-- Python whitespace class used by `str.strip` and the `\s` regex class
(ASCII part, which is all the embedded call sites exercise). -/
def pyIsSpace (c : Char) : Bool :=
  c = ' ' || c = '\t' || c = '\n' || c = '\r' || c = '\x0b' || c = '\x0c'

/-- Python `str.strip()` on a character list. -/
def pyStrip (cs : List Char) : List Char :=
  ((cs.dropWhile pyIsSpace).reverse.dropWhile pyIsSpace).reverse

/-- Python `str.strip()` on a `String`. -/
def pyStripS (s : String) : String :=
  String.mk (pyStrip s.data)

/-- Python `str.lower()` (ASCII relevant part). -/
def pyLower (s : String) : String :=
  String.mk (s.data.map Char.toLower)

/-- Does `pat` occur as a prefix of `cs`? -/
def dropLit : List Char → List Char → Option (List Char)
  | [], cs => some cs
  | _ :: _, [] => none
  | p :: ps, c :: cs => if p = c then dropLit ps cs else none

/-- Python `pat in s` substring containment on character lists. -/
def containsSub (pat : List Char) : List Char → Bool
  | [] => (dropLit pat []).isSome
  | c :: cs => (dropLit pat (c :: cs)).isSome || containsSub pat cs

/-- Substring containment on `String`s (`pat in s` in Python). -/
def containsSubS (pat s : String) : Bool :=
  containsSub pat.data s.data

/-- Python `s.startswith(pre)`. -/
def startsWithS (pre s : String) : Bool :=
  (dropLit pre.data s.data).isSome

/-- Numeric value of a digit list (most significant first). -/
def natOfDigits (cs : List Char) : Nat :=
  cs.foldl (fun acc c => acc * 10 + (c.toNat - '0'.toNat)) 0

/-- Python `float(x)` restricted to the comma-free decimal literals produced by the
price regexes: optional digits, optional single dot, optional digits, with at
least one digit overall.  Returns `none` where Python would raise
`ValueError`. -/
def pyFloatDec (cs : List Char) : Option ℚ :=
  let intPart := cs.takeWhile Char.isDigit
  let rest := cs.drop intPart.length
  match rest with
  | [] => if intPart = [] then none else some (mkRat (natOfDigits intPart) 1)
  | '.' :: fracCs =>
      if fracCs.all Char.isDigit ∧ (intPart ≠ [] ∨ fracCs ≠ []) then
        some (mkRat
          (natOfDigits intPart * 10 ^ fracCs.length + natOfDigits fracCs)
          (10 ^ fracCs.length))
      else none
  | _ => none

/-- Division by `100.0` (the `/ 100.0` steps of `_parse_price_value`),
written through `mkRat` so that concrete instances evaluate by kernel
reduction. -/
def divBy100 (q : ℚ) : ℚ := mkRat q.num (q.den * 100)

/-- Python `int(s)` on strings: surrounding whitespace, optional sign,
then decimal digits.  `none` models `ValueError`. -/
def parseIntPy (s : String) : Option Int :=
  let t := pyStrip s.data
  let signed : Int × List Char :=
    match t with
    | '-' :: r => (-1, r)
    | '+' :: r => (1, r)
    | _ => (1, t)
  if signed.2 ≠ [] ∧ signed.2.all Char.isDigit then
    some (signed.1 * (natOfDigits signed.2 : Int))
  else none

/-- Python `float(s)` for plain decimal strings (surrounding whitespace,
optional sign, digits with optional fraction); `none` models `ValueError`. -/
def pyFloat (s : String) : Option ℚ :=
  let t := pyStrip s.data
  let signed : ℚ × List Char :=
    match t with
    | '-' :: r => (-1, r)
    | '+' :: r => (1, r)
    | _ => (1, t)
  (pyFloatDec signed.2).map (fun q => signed.1 * q)

/-! ## The product data model and the two validation gates

A scraped product is a Python dict with the mandatory keys
`name`, `price`, `image`, `link` plus auxiliary fields.  Python
truthiness on those values (`not product.get(field)`) is what both
gates use, so it is embedded explicitly: a string field is truthy when
present and non-empty, the price when present and non-zero. -/

structure ProductC where
  name : Option String
  price : Option ℚ
  image : Option String
  images : List String
  shipping : Option String
  description : Option String
  link : Option String
  source : String
  deriving Repr, DecidableEq

/-- Truthiness of an optional string field (`None` and `""` are falsy). -/
def truthyS : Option String → Bool
  | none => false
  | some s => s ≠ ""

/-- Truthiness of the price field (`None` and `0.0` are falsy). -/
def truthyP : Option ℚ → Bool
  | none => false
  | some q => q ≠ 0

/-- Python `a or b` for optional string values. -/
def pyOrS (a b : Option String) : Option String :=
  if truthyS a then a else b

/-- Python `[v] if v else []` for an optional string. -/
def optToList : Option String → List String
  | none => []
  | some s => if s ≠ "" then [s] else []

/-- Truthiness of `product.get(k)` per required-field key. -/
def fieldTruthy (p : ProductC) : String → Bool
  | "name" => truthyS p.name
  | "price" => truthyP p.price
  | "image" => truthyS p.image
  | "link" => truthyS p.link
  | _ => false

namespace WalmartSpider

/-- Spider configuration built in `WalmartSpider.__init__`: `max_price`
is `float("inf")` by default, modelled by `none`. -/
structure Cfg where
  min_price : ℚ
  max_price : Option ℚ
  num_products : Nat
  max_pages : Nat
  deriving Repr, DecidableEq

/-- Embeds `WalmartSpider._required_missing`: the required keys whose values are
falsy, in the fixed order of the source tuple. -/
def required_missing (p : ProductC) : List String :=
  (["name", "price", "image", "link"]).filter (fun k => ! fieldTruthy p k)

/-- Embeds `WalmartSpider._is_price_allowed`. -/
def is_price_allowed (cfg : Cfg) : Option ℚ → Bool
  | none => false
  | some q =>
      decide (cfg.min_price ≤ q) &&
        (match cfg.max_price with
         | none => true
         | some M => decide (q ≤ M))

/-- Embeds `WalmartSpider._is_valid_product`. -/
def is_valid_product (cfg : Cfg) (p : ProductC) : Bool :=
  if required_missing p ≠ [] then false
  else is_price_allowed cfg p.price

end WalmartSpider

namespace App

/-- Embeds `app._product_missing_fields`. -/
def product_missing_fields (p : ProductC) : List String :=
  (["name", "price", "image", "link"]).filter (fun k => ! fieldTruthy p k)

/-- Embeds `app._product_is_valid`. -/
def product_is_valid (p : ProductC) : Bool :=
  (product_missing_fields p).length = 0

end App

end Scraper

namespace Scraper

/-! ## Price parsing

Each `re` pattern of the source is translated into a dedicated
leftmost-match scanner.  All repetitions in those patterns range over
character classes only, and in each pattern the character following a
greedy repetition is outside the repeated class, so maximal-munch
scanning coincides with the backtracking semantics of Python `re`. -/

/-- The `[\d,]` class. -/
def digitOrComma (c : Char) : Bool := c.isDigit || c = ','

/-- Match `[\d,]+(?:\.\d+)?` anchored at the head, returning the match. -/
def numTokenAt (cs : List Char) : Option (List Char) :=
  let run := cs.takeWhile digitOrComma
  if run = [] then none
  else
    match cs.drop run.length with
    | '.' :: rest =>
        let ds := rest.takeWhile Char.isDigit
        if ds = [] then some run else some (run ++ '.' :: ds)
    | _ => some run

/-- Embeds `re.search(r"[\d,]+(?:\.\d+)?", txt)`: leftmost match. -/
def searchNumToken : List Char → Option (List Char)
  | [] => none
  | c :: cs =>
      match numTokenAt (c :: cs) with
      | some m => some m
      | none => searchNumToken cs

/-- Embeds `WalmartSpider._parse_price`: leftmost `[\d,]+(?:\.\d+)?` match,
commas removed, converted by `float` (`none` on no match or
`ValueError`). -/
def spiderParsePrice (txt : String) : Option ℚ :=
  if txt = "" then none
  else
    match searchNumToken txt.data with
    | none => none
    | some tok => pyFloatDec (tok.filter (fun c => c ≠ ','))

/-- Anchored match of the group `[0-9][0-9,]*\.[0-9]{2}`; returns the
captured characters and the remaining input. -/
def decimal2At : List Char → Option (List Char × List Char)
  | [] => none
  | c :: t =>
      if c.isDigit then
        let run := t.takeWhile digitOrComma
        match t.drop run.length with
        | '.' :: d1 :: d2 :: r2 =>
            if d1.isDigit && d2.isDigit then
              some (c :: run ++ '.' :: d1 :: [d2], r2)
            else none
        | _ => none
      else none

/-- Anchored match of `[0-9][0-9,]*\.[0-9]{1,2}` (greedy `{1,2}`). -/
def decimal12At : List Char → Option (List Char × List Char)
  | [] => none
  | c :: t =>
      if c.isDigit then
        let run := t.takeWhile digitOrComma
        match t.drop run.length with
        | '.' :: d1 :: rest =>
            if d1.isDigit then
              match rest with
              | d2 :: r2 =>
                  if d2.isDigit then some (c :: run ++ '.' :: d1 :: [d2], r2)
                  else some (c :: run ++ '.' :: [d1], rest)
              | [] => some (c :: run ++ '.' :: [d1], [])
            else none
        | _ => none
      else none

/-- Anchored match of `[0-9][0-9,]{2,}` (greedy, maximal). -/
def compact3At : List Char → Option (List Char) :=
  fun cs =>
    match cs with
    | [] => none
    | c :: t =>
        if c.isDigit then
          let run := t.takeWhile digitOrComma
          if run.length ≥ 2 then some (c :: run) else none
        else none

/-- Consume `\s+` (at least one whitespace, maximal). -/
def wsPlus (cs : List Char) : Option (List Char) :=
  let run := cs.takeWhile pyIsSpace
  if run = [] then none else some (cs.drop run.length)

/-- Consume the `\s*\$?\s*` gap between a label and the amount.  The
neighbouring tokens are never whitespace or `$`, so the greedy scan is
deterministic. -/
def gapDollar (cs : List Char) : List Char :=
  let r := cs.dropWhile pyIsSpace
  let r2 := match r with
            | '$' :: t => t
            | _ => r
  r2.dropWhile pyIsSpace

/-- Candidate rests after the alternation
`(?:now|clearance|reduced(?:\s+from)?|sale(?:\s+price)?)`, in the
backtracking priority order of Python `re` (alternatives left to right,
greedy optional groups first). -/
def labelRests (cs : List Char) : List (List Char) :=
  (match dropLit "now".data cs with
   | some r => [r]
   | none => []) ++
  (match dropLit "clearance".data cs with
   | some r => [r]
   | none => []) ++
  (match dropLit "reduced".data cs with
   | some r =>
       (match wsPlus r with
        | some r1 =>
            match dropLit "from".data r1 with
            | some r2 => [r2, r]
            | none => [r]
        | none => [r])
   | none => []) ++
  (match dropLit "sale".data cs with
   | some r =>
       (match wsPlus r with
        | some r1 =>
            match dropLit "price".data r1 with
            | some r2 => [r2, r]
            | none => [r]
        | none => [r])
   | none => [])

/-- First alternative (in priority order) whose continuation succeeds. -/
def firstSome {α β : Type} (f : α → Option β) : List α → Option β
  | [] => none
  | a :: rest =>
      match f a with
      | some b => some b
      | none => firstSome f rest

/-- Anchored match of
`(?:now|clearance|reduced(?:\s+from)?|sale(?:\s+price)?)\s*\$?\s*([0-9][0-9,]*\.[0-9]{2})`. -/
def labeledDecimalAt (cs : List Char) : Option (List Char) :=
  firstSome (fun r => (decimal2At (gapDollar r)).map Prod.fst) (labelRests cs)

/-- Anchored match of the `labeled_compact` pattern
`(?:now|clearance|reduced(?:\s+from)?|sale(?:\s+price)?)\s*\$?\s*([0-9][0-9,]{2,})`. -/
def labeledCompactAt (cs : List Char) : Option (List Char) :=
  firstSome (fun r => compact3At (gapDollar r)) (labelRests cs)

/-- Anchored match of
`current\s+price\s*\$?\s*([0-9][0-9,]*\.[0-9]{2})`. -/
def currentPriceAt (cs : List Char) : Option (List Char) :=
  match dropLit "current".data cs with
  | none => none
  | some r1 =>
      match wsPlus r1 with
      | none => none
      | some r2 =>
          match dropLit "price".data r2 with
          | none => none
          | some r3 => (decimal2At (gapDollar r3)).map Prod.fst

/-- Anchored match of `current\s+price` (used only as a boolean test). -/
def currentPriceWordAt (cs : List Char) : Bool :=
  match dropLit "current".data cs with
  | none => false
  | some r1 =>
      match wsPlus r1 with
      | none => false
      | some r2 => (dropLit "price".data r2).isSome

/-- Generic `re.search` over positions for a scanner without boundary context. -/
def searchAt {β : Type} (f : List Char → Option β) : List Char → Option β
  | [] => f []
  | c :: cs =>
      match f (c :: cs) with
      | some b => some b
      | none => searchAt f cs

/-- Is there a `current\s+price` occurrence anywhere
(`re.search(r"current\s+price", s)`)? -/
def hasCurrentPrice (cs : List Char) : Bool :=
  (searchAt (fun r => if currentPriceWordAt r then some () else none) cs).isSome

/-- Anchored match of `\$\s*` followed by an amount scanner producing
(capture, rest-after-match). -/
def dollarAmountAt (amount : List Char → Option (List Char × List Char))
    (cs : List Char) : Option (List Char × List Char) :=
  match cs with
  | '$' :: t => amount (t.dropWhile pyIsSpace)
  | _ => none

/-- Generic `re.findall` for a scanner producing (capture, rest): scan left to
right, continuing after each non-overlapping match.  The fuel argument
(instantiated with the input length plus one) bounds the number of
steps; every scanner used consumes at least one character per match, so
the fuel never runs out before the input does. -/
def findallFuel (f : List Char → Option (List Char × List Char)) :
    Nat → List Char → List (List Char)
  | 0, _ => []
  | _, [] => []
  | fuel + 1, c :: cs =>
      match f (c :: cs) with
      | some (cap, rest) => cap :: findallFuel f fuel rest
      | none => findallFuel f fuel cs

/-- The `re.findall` driver. -/
def findall (f : List Char → Option (List Char × List Char))
    (cs : List Char) : List (List Char) :=
  findallFuel f (cs.length + 1) cs

/-- Python `\w` (ASCII part). -/
def isWordCh (c : Char) : Bool := c.isAlphanum || c = '_'

/-- Embeds `re.search(r"\b([0-9][0-9,]*\.[0-9]\x7b2\x7d)\b", s)`: scan with the
previous character tracked for the word boundary. -/
def m2Search : Option Char → List Char → Option (List Char)
  | _, [] => none
  | prev, c :: t =>
      let tryHere : Option (List Char) :=
        if (match prev with
            | none => true
            | some p => ! isWordCh p) then
          match decimal2At (c :: t) with
          | some (cap, rest) =>
              (match rest with
               | [] => some cap
               | r :: _ => if isWordCh r then none else some cap)
          | none => none
        else none
      match tryHere with
      | some cap => some cap
      | none => m2Search (some c) t

end Scraper

namespace Scraper

/-- Anchored match of the `compact_currency` amount `[0-9][0-9,]*`
(greedy), returning (capture, rest). -/
def compactAmountAt : List Char → Option (List Char × List Char)
  | [] => none
  | c :: t =>
      if c.isDigit then
        let run := t.takeWhile digitOrComma
        some (c :: run, t.drop run.length)
      else none

/-- Embeds `app.captcha_interactive._parse_price_value`: the ordered chain of
regex heuristics of the source, evaluated on the stripped text with
`\xa0` replaced by a space.  All patterns carry `re.IGNORECASE` and
their captures contain only digits, commas and dots, so matching runs
on the lower-cased text. -/
def parsePriceValue (text : String) : Option ℚ :=
  if text = "" then none
  else
    let s := pyStrip (text.data.map (fun c => if c = '\xa0' then ' ' else c))
    let low := s.map Char.toLower
    match searchAt labeledDecimalAt low with
    | some cap => pyFloatDec (cap.filter (fun c => c ≠ ','))
    | none =>
    match searchAt labeledCompactAt low with
    | some cap =>
        let raw := cap.filter (fun c => c ≠ ',')
        (pyFloatDec raw).map
          (fun q => if raw.length ≥ 3 then divBy100 q else q)
    | none =>
    match searchAt currentPriceAt low with
    | some cap => pyFloatDec (cap.filter (fun c => c ≠ ','))
    | none =>
    match (findall (dollarAmountAt decimal12At) low).getLast? with
    | some cap => pyFloatDec (cap.filter (fun c => c ≠ ','))
    | none =>
    match m2Search none low with
    | some cap => pyFloatDec (cap.filter (fun c => c ≠ ','))
    | none =>
    match (findall (dollarAmountAt compactAmountAt) low).getLast? with
    | some cap =>
        let num := cap.filter (fun c => c ≠ ',')
        if hasCurrentPrice low ∧ num.length ≥ 3 then
          (pyFloatDec num).map divBy100
        else pyFloatDec num
    | none => none

/-- The split dollars/cents parse of `app.captcha_interactive` (the
`span.price-characteristic` / `span.price-mantissa` branch): digits are
extracted from each node text with `re.sub(r"[^0-9]", "", ...)`, the
cents are truncated to two digits and left-justified with `"0"`, and
the price is `float(f"{int(dollars)}.{cents}")`. -/
def splitPriceParse (dollars cents : String) : Option ℚ :=
  let dollarsDigits := dollars.data.filter Char.isDigit
  let centsDigits := cents.data.filter Char.isDigit
  if dollarsDigits ≠ [] then
    if centsDigits ≠ [] then
      let c2 := (centsDigits.take 2) ++
        List.replicate (2 - (centsDigits.take 2).length) '0'
      some (mkRat (natOfDigits dollarsDigits * 100 + natOfDigits c2) 100)
    else some (mkRat (natOfDigits dollarsDigits) 1)
  else none

end Scraper

namespace Scraper

/-! ## Link normalization -/

namespace WalmartSpider

/-- Embeds `WalmartSpider._normalize_link`. -/
def normalize_link : Option String → Option String
  | none => none
  | some link =>
      if link = "" then none
      else if startsWithS "http" link then some link
      else some ("https://www.walmart.com" ++ link)

end WalmartSpider

/-! URL helpers (`urllib.parse`) used by the interactive link
normalizer and the spider's next-page computation. -/

/-- Hex digit value. -/
def hexVal (c : Char) : Option Nat :=
  if '0' ≤ c ∧ c ≤ '9' then some (c.toNat - '0'.toNat)
  else if 'a' ≤ c ∧ c ≤ 'f' then some (c.toNat - 'a'.toNat + 10)
  else if 'A' ≤ c ∧ c ≤ 'F' then some (c.toNat - 'A'.toNat + 10)
  else none

/-- Python `urllib.parse.unquote` (single-byte sequences): `%XX` becomes the
character with that code, malformed escapes are kept literally. -/
def unquoteChars : List Char → List Char
  | [] => []
  | '%' :: h1 :: h2 :: rest =>
      match hexVal h1, hexVal h2 with
      | some a, some b => Char.ofNat (a * 16 + b) :: unquoteChars rest
      | _, _ => '%' :: unquoteChars (h1 :: h2 :: rest)
  | c :: rest => c :: unquoteChars rest

/-- Python `urllib.parse.unquote` on strings. -/
def unquote (s : String) : String :=
  String.mk (unquoteChars s.data)

/-- Python `urllib.parse.unquote_plus`: `+` becomes a space, then `%XX`
decoding. -/
def unquotePlus (s : String) : String :=
  String.mk (unquoteChars (s.data.map (fun c => if c = '+' then ' ' else c)))

/-- The components of `urllib.parse.urlparse` that the embedded code
reads (`params` in the Python 6-tuple is never used and is left inside
`path`). -/
structure UrlParts where
  scheme : String
  netloc : String
  path : String
  query : String
  fragment : String
  deriving Repr, DecidableEq

/-- Split at the first occurrence of a separator character, returning
(before, after); the separator is dropped. -/
def splitFirst (sep : Char) (cs : List Char) : List Char × Option (List Char) :=
  let before := cs.takeWhile (fun c => c ≠ sep)
  match cs.drop before.length with
  | [] => (before, none)
  | _ :: rest => (before, some rest)

/-- Python `urllib.parse.urlparse` for the absolute and relative URLs the code
handles: `scheme://netloc/path?query#fragment` with every component
optional. -/
def urlparse (url : String) : UrlParts :=
  let cs := url.data
  let fragSplit := splitFirst '#' cs
  let frag := match fragSplit.2 with
              | some f => f
              | none => []
  let querySplit := splitFirst '?' fragSplit.1
  let query := match querySplit.2 with
               | some q => q
               | none => []
  let beforeQuery := querySplit.1
  let schemeEnd := beforeQuery.takeWhile (fun c => c ≠ ':' ∧ c ≠ '/')
  match dropLit (schemeEnd ++ [':', '/', '/']) beforeQuery with
  | some afterScheme =>
      let netloc := afterScheme.takeWhile (fun c => c ≠ '/')
      let path := afterScheme.drop netloc.length
      { scheme := String.mk schemeEnd, netloc := String.mk netloc,
        path := String.mk path, query := String.mk query,
        fragment := String.mk frag }
  | none =>
      { scheme := "", netloc := "", path := String.mk beforeQuery,
        query := String.mk query, fragment := String.mk frag }

/-- Python `urllib.parse.parse_qs` with default arguments: split the query on
`&`, drop parts without `=` and parts with a blank value, decode keys
and values with `unquote_plus`, group values under their key in first-
occurrence order. -/
def parseQsPairs (query : String) : List (String × String) :=
  (query.data.splitOn '&').filterMap (fun part =>
    let kv := splitFirst '=' part
    match kv.2 with
    | none => none
    | some v =>
        if v = [] then none
        else some (unquotePlus (String.mk kv.1), unquotePlus (String.mk v)))

/-- Group the decoded pairs into the `dict[str, list[str]]` shape of
`parse_qs` (insertion order of first occurrence, as in CPython). -/
def groupPairs : List (String × String) → List (String × List String)
  | [] => []
  | (k, v) :: rest =>
      let grouped := groupPairs rest
      match grouped.lookup k with
      | some vs =>
          (k, v :: vs) :: grouped.filter (fun e => e.1 ≠ k)
      | none => (k, [v]) :: grouped

/-- Python `urllib.parse.parse_qs`. -/
def parse_qs (query : String) : List (String × List String) :=
  groupPairs (parseQsPairs query)

end Scraper

namespace Scraper

/-- Anchored match of `(/ip/[^\s\?&#]+[^\s]*)`: the literal `/ip/`, then
at least one character outside `\s?&#` (greedy), then any further
non-whitespace characters (greedy). -/
def ipPathAt (cs : List Char) : Option (List Char) :=
  match dropLit "/ip/".data cs with
  | none => none
  | some r =>
      let run1 := r.takeWhile (fun c =>
        ! pyIsSpace c ∧ c ≠ '?' ∧ c ≠ '&' ∧ c ≠ '#')
      if run1 = [] then none
      else
        let r2 := r.drop run1.length
        let run2 := r2.takeWhile (fun c => ! pyIsSpace c)
        some ("/ip/".data ++ run1 ++ run2)

/-- Embeds `re.search(r"(/ip/[^\s\?&#]+[^\s]*)", s)`: leftmost match. -/
def searchIpPath (cs : List Char) : Option (List Char) :=
  searchAt ipPathAt cs

namespace App

/-- Embeds `app.captcha_interactive._normalize_product_link`: strips, resolves a
leading `/` against the site origin, and resolves `/sp/track` sponsored
wrappers through the `rd` query parameter or an embedded `/ip/...`
pattern; otherwise the link is returned unchanged. -/
def normalize_product_link : Option String → Option String
  | none => none
  | some rawLink =>
      if rawLink = "" then none
      else
        let link0 := pyStripS rawLink
        let link := if startsWithS "/" link0
                    then "https://www.walmart.com" ++ link0
                    else link0
        let parts := urlparse link
        if containsSubS "/sp/track" parts.path then
          let qs := parse_qs parts.query
          let rd : Option String :=
            match qs.lookup "rd" with
            | some (v :: _) => some v
            | _ => none
          let viaRd : Option String :=
            match rd with
            | some rdv =>
                if rdv ≠ "" then
                  let resolved0 := unquote rdv
                  let resolved := if startsWithS "/" resolved0
                                  then "https://www.walmart.com" ++ resolved0
                                  else resolved0
                  if startsWithS "http" resolved then some resolved else none
                else none
            | none => none
          match viaRd with
          | some resolved => some resolved
          | none =>
              match searchIpPath (unquote link).data with
              | some capture =>
                  let candidate := String.mk capture
                  some (if startsWithS "/" candidate
                        then "https://www.walmart.com" ++ candidate
                        else candidate)
              | none => some link
        else some link

end App

/-! ## Pagination (`_build_next_page_url` / `_maybe_schedule_next_page`) -/

/-- Characters that `urllib.parse.quote_plus` leaves unescaped. -/
def urlSafeChar (c : Char) : Bool :=
  c.isAlphanum || c = '_' || c = '.' || c = '-' || c = '~'

/-- Upper-case hex digit for a nibble. -/
def hexDigit (n : Nat) : Char :=
  if n < 10 then Char.ofNat ('0'.toNat + n)
  else Char.ofNat ('A'.toNat + (n - 10))

/-- Python `urllib.parse.quote_plus` for the ASCII strings involved: a space
becomes `+`, unsafe characters become `%XX`. -/
def quotePlus (s : String) : String :=
  String.mk (s.data.flatMap (fun c =>
    if c = ' ' then ['+']
    else if urlSafeChar c then [c]
    else ['%', hexDigit (c.toNat / 16 % 16), hexDigit (c.toNat % 16)]))

/-- Python `urllib.parse.urlencode(query, doseq=True)` over the ordered
key/values structure produced by `parse_qs`. -/
def urlencodeSeq (qs : List (String × List String)) : String :=
  String.intercalate "&"
    (qs.flatMap (fun kv =>
      kv.2.map (fun v => quotePlus kv.1 ++ "=" ++ quotePlus v)))

/-- Python `urllib.parse.urlunparse` on the components the spider rebuilds. -/
def urlunparse (u : UrlParts) : String :=
  (if u.scheme ≠ "" then u.scheme ++ "://" ++ u.netloc else u.netloc) ++
    u.path ++
    (if u.query ≠ "" then "?" ++ u.query else "") ++
    (if u.fragment ≠ "" then "#" ++ u.fragment else "")

/-- Update a key in the `parse_qs` dict (replace in place, else append),
matching `query["page"] = [...]` assignment on a Python dict. -/
def upsertQ (qs : List (String × List String)) (k : String)
    (vs : List String) : List (String × List String) :=
  if (qs.lookup k).isSome then
    qs.map (fun kv => if kv.1 = k then (kv.1, vs) else kv)
  else qs ++ [(k, vs)]

namespace WalmartSpider

/-- Embeds `WalmartSpider._build_next_page_url`: reads the `page` query
parameter (default `"1"`), increments it, writes back `page` and `q`,
and re-encodes the URL.  `none` models the `ValueError` that `int`
would raise on a malformed `page` value. -/
def build_next_page_url (searchTerm url : String) :
    Option (String × Int) :=
  let parts := urlparse url
  let query := parse_qs parts.query
  let pageRaw : String :=
    match query.lookup "page" with
    | some (v :: _) => v
    | _ => "1"
  let pageStr := if pageRaw = "" then "1" else pageRaw
  match parseIntPy pageStr with
  | none => none
  | some current =>
      let next := current + 1
      let query1 := upsertQ query "page" [toString next]
      let query2 := upsertQ query1 "q" [searchTerm]
      some (urlunparse { parts with query := urlencodeSeq query2 }, next)

/-- Embeds `WalmartSpider._maybe_schedule_next_page`: no request when the
target is already reached or the page budget is exhausted; otherwise
the next URL comes from the `Next Page` anchor when present, else from
`_build_next_page_url`. -/
def maybe_schedule_next_page (resultsFound numProducts : Nat)
    (pageNumber : Int) (maxPages : Nat) (nextHref : Option String)
    (searchTerm url : String) : Option (String × Int) :=
  if resultsFound ≥ numProducts then none
  else if pageNumber ≥ (maxPages : Int) then none
  else if truthyS nextHref then
    match normalize_link nextHref with
    | some u => some (u, pageNumber + 1)
    | none => none
  else build_next_page_url searchTerm url

end WalmartSpider

end Scraper

namespace Scraper

namespace WalmartSpider

/-! ## The spider's parse loops

The CSS/JSON field extraction happens at the boundary to the rendered
page; the loops below consume the already-extracted values (one
`JsonItem` per `__NEXT_DATA__` item, one `DomCard` per listing card,
one `DetailPage` per enriched product page) and embed the acceptance
logic of `WalmartSpider.parse` and `WalmartSpider.parse_product_detail`
verbatim: break on target reached, duplicate-link skip, validation,
`seen_links` update and emission. -/

/-- Mutable spider counters (`results_found`, `seen_links`).  The set of
seen links is a list used only through membership, matching Python set
semantics; it holds the raw values added, including a potential
`None`. -/
structure SpiderState where
  results_found : Nat
  seen_links : List (Option String)
  deriving Repr, DecidableEq

/-- The raw `price` value found at `item["priceInfo"]["currentPrice"]["price"]`:
absent, a JSON number, or a string. -/
inductive PriceRaw where
  | num (q : ℚ)
  | str (s : String)
  deriving Repr, DecidableEq

/-- One entry of the `__NEXT_DATA__` item stacks, restricted to the keys
the spider reads. -/
structure JsonItem where
  typename : Option String
  canonicalUrl : Option String
  name : Option String
  priceInfoPrice : Option PriceRaw
  image : Option String
  fulfillmentLabel : Option String
  description : Option String
  deriving Repr, DecidableEq

/-- The price coercion of the JSON path: `float(price)` with a fallback
to `_parse_price(str(price))` on failure; an absent price stays
absent. -/
def coercePrice : Option PriceRaw → Option ℚ
  | none => none
  | some (.num q) => some q
  | some (.str s) =>
      match pyFloat s with
      | some q => some q
      | none => spiderParsePrice s

/-- The product dict built for a JSON item (lines 291-308 of the
spider). -/
def jsonToProduct (item : JsonItem) : ProductC :=
  { name := item.name,
    price := coercePrice item.priceInfoPrice,
    image := item.image,
    images := optToList item.image,
    shipping := item.fulfillmentLabel,
    description := item.description,
    link := normalize_link item.canonicalUrl,
    source := "json_extraction" }

/-- The JSON-path acceptance loop of `WalmartSpider.parse` (lines
279-326): per item, break once the target is reached, skip non-product
entries, skip links already seen, validate, and on acceptance record
the link, bump the counter and yield the product. -/
def processJsonItems (cfg : Cfg) : SpiderState → List JsonItem →
    SpiderState × List ProductC
  | st, [] => (st, [])
  | st, item :: rest =>
      if st.results_found ≥ cfg.num_products then (st, [])
      else if item.typename ≠ some "Product" then
        processJsonItems cfg st rest
      else
        let link := normalize_link item.canonicalUrl
        if link ∈ st.seen_links then processJsonItems cfg st rest
        else
          let product := jsonToProduct item
          if is_valid_product cfg product then
            let st1 : SpiderState :=
              { results_found := st.results_found + 1,
                seen_links := st.seen_links ++ [link] }
            let res := processJsonItems cfg st1 rest
            (res.1, product :: res.2)
          else processJsonItems cfg st rest

/-- The values extracted from one DOM listing card by the selector
chains of `WalmartSpider.parse` (the `_attempt_extract` results). -/
structure DomCard where
  name : Option String
  price_text : Option String
  image : Option String
  raw_link : Option String
  shipping : Option String
  deriving Repr, DecidableEq

/-- The product dict built for a DOM card (lines 371-406). -/
def domToProduct (card : DomCard) : ProductC :=
  { name := match card.name with
            | some s => if s ≠ "" then some (pyStripS s) else none
            | none => none,
    price := match card.price_text with
             | some s => if s ≠ "" then spiderParsePrice s else none
             | none => none,
    image := card.image,
    images := optToList card.image,
    shipping := card.shipping,
    description := none,
    link := normalize_link card.raw_link,
    source := "dom_scrape" }

/-- The DOM-path loop of `WalmartSpider.parse` (lines 347-440).
Returns the new state, the accepted products and the partial products
sent to detail-page enrichment (in card order). -/
def processDomCards (cfg : Cfg) : SpiderState → List DomCard →
    SpiderState × List ProductC × List ProductC
  | st, [] => (st, [], [])
  | st, card :: rest =>
      if st.results_found ≥ cfg.num_products then (st, [], [])
      else
        let link := normalize_link card.raw_link
        if link ∈ st.seen_links then processDomCards cfg st rest
        else
          let product := domToProduct card
          let missing := required_missing product
          if missing ≠ [] ∧ truthyS link then
            let res := processDomCards cfg st rest
            (res.1, res.2.1, product :: res.2.2)
          else if ! is_valid_product cfg product then
            processDomCards cfg st rest
          else
            let st1 : SpiderState :=
              { results_found := st.results_found + 1,
                seen_links := st.seen_links ++ [link] }
            let res := processDomCards cfg st1 rest
            (res.1, product :: res.2.1, res.2.2)

/-- The values extracted from a product detail page by
`WalmartSpider.parse_product_detail`: the selector-chain results, the
gallery images, the JSON-LD fallbacks, and the response URL. -/
structure DetailPage where
  name : Option String
  price_text : Option String
  description : Option String
  shipping : Option String
  images : List String
  ldName : Option String
  ldDescription : Option String
  url : String
  deriving Repr, DecidableEq

/-- The merged product dict built by `WalmartSpider.parse_product_detail`
(lines 473-513): detail-page extraction results merged over the partial
item, with JSON-LD fallbacks for name and description. -/
def detailMerged (part : ProductC) (page : DetailPage) : ProductC :=
  let price := match page.price_text with
               | some s => if s ≠ "" then spiderParsePrice s else part.price
               | none => part.price
  let images := if page.images = [] ∧ part.images ≠ []
                then part.images else page.images
  let image := if images ≠ [] then images.head? else part.image
  let description := if ! truthyS page.description ∧ truthyS page.ldDescription
                     then page.ldDescription else page.description
  let name := if ! truthyS page.name ∧ truthyS page.ldName
              then page.ldName else page.name
  { name := pyOrS name part.name,
    price := price,
    image := image,
    images := if images ≠ [] then images else optToList image,
    shipping := pyOrS page.shipping part.shipping,
    description := pyOrS description part.description,
    link := pyOrS part.link (some page.url),
    source := "detail_enrichment" }

/-- Embeds `WalmartSpider.parse_product_detail` (lines 447-531) for one partial
item: merge the detail extraction over the partial product, validate,
deduplicate and either emit the merged product or nothing. -/
def parse_product_detail (cfg : Cfg) (st : SpiderState)
    (part : ProductC) (page : DetailPage) :
    SpiderState × Option ProductC :=
  let merged := detailMerged part page
  if ! is_valid_product cfg merged then (st, none)
  else if merged.link ∈ st.seen_links then (st, none)
  else
    ({ results_found := st.results_found + 1,
       seen_links := st.seen_links ++ [merged.link] }, some merged)

end WalmartSpider

end Scraper

namespace Scraper

namespace App

/-! ## Anti-bot detection (`app.detect_captcha`) -/

/-- The keyword list of `detect_captcha`. -/
def captchaChecks : List String :=
  ["robot or human", "are you a robot", "please verify", "challenge",
   "/blocked?url=", "px-cloud", "captcha"]

/-- Embeds `app.detect_captcha`: false on empty input, otherwise any keyword
contained in the lower-cased page text. -/
def detect_captcha (html : String) : Bool :=
  if html = "" then false
  else captchaChecks.any (fun k => containsSubS k (pyLower html))

/-! ## Request parameter handling (`app.scrape`) -/

/-- The `numProducts` handling of `app.scrape` (lines 1029-1033):
`int(request.form.get('numProducts') or 10)` clamped to `[1, 100]`,
with the bare default `10` on a `ValueError`. -/
def numProductsOf (param : Option String) : Int :=
  match param with
  | none => max 1 (min 10 100)
  | some s =>
      if s = "" then max 1 (min 10 100)
      else
        match parseIntPy s with
        | some n => max 1 (min n 100)
        | none => 10

/-! ## Scrapy output loading (`app.scrape._load_scrapy_output`)

`json.loads` is embedded as a recursive-descent parser over character
lists with a fuel argument; the fuel instantiated at the top call is
larger than the recursion depth any input can force, since every
recursive call strictly descends into the remaining input. -/

/-- JSON values as `json.loads` returns them.  Number literals keep
their lexeme (Python distinguishes `1` from `1.0`; no claim below
compares numbers across representations). -/
inductive JVal where
  | null
  | bool (b : Bool)
  | num (lexeme : String)
  | str (s : String)
  | arr (items : List JVal)
  | obj (fields : List (String × JVal))
  deriving Repr, BEq

/-- JSON whitespace accepted between tokens by `json.loads`. -/
def jWs (c : Char) : Bool := c = ' ' || c = '\t' || c = '\n' || c = '\r'

/-- Skip JSON whitespace. -/
def skipJWs (cs : List Char) : List Char := cs.dropWhile jWs

/-- Parse the body of a JSON string literal after the opening quote.
Control characters must be escaped (`strict=True`); `\uXXXX` escapes
decode to the corresponding code point. -/
def parseJStringBody : Nat → List Char → Option (List Char × List Char)
  | 0, _ => none
  | _, [] => none
  | fuel + 1, c :: rest =>
      if c = '"' then some ([], rest)
      else if c = '\\' then
        match rest with
        | [] => none
        | e :: rest2 =>
            let decoded : Option (Char × List Char) :=
              if e = '"' then some ('"', rest2)
              else if e = '\\' then some ('\\', rest2)
              else if e = '/' then some ('/', rest2)
              else if e = 'b' then some ('\x08', rest2)
              else if e = 'f' then some ('\x0c', rest2)
              else if e = 'n' then some ('\n', rest2)
              else if e = 'r' then some ('\r', rest2)
              else if e = 't' then some ('\t', rest2)
              else if e = 'u' then
                match rest2 with
                | h1 :: h2 :: h3 :: h4 :: rest3 =>
                    match hexVal h1, hexVal h2, hexVal h3, hexVal h4 with
                    | some a, some b, some c2, some d =>
                        some (Char.ofNat (((a * 16 + b) * 16 + c2) * 16 + d),
                          rest3)
                    | _, _, _, _ => none
                | _ => none
              else none
            match decoded with
            | some (ch, rest3) =>
                (parseJStringBody fuel rest3).map
                  (fun r => (ch :: r.1, r.2))
            | none => none
      else if c.toNat < 32 then none
      else
        (parseJStringBody fuel rest).map (fun r => (c :: r.1, r.2))

/-- Parse a JSON number literal (after an optional leading minus already
checked to start a number): returns the lexeme. -/
def parseJNumber (cs : List Char) : Option (List Char × List Char) :=
  let withSign : Option (List Char × List Char) :=
    match cs with
    | '-' :: rest => some (['-'], rest)
    | _ => some ([], cs)
  match withSign with
  | none => none
  | some (sign, afterSign) =>
      let intDigits := afterSign.takeWhile Char.isDigit
      if intDigits = [] then none
      else if intDigits.length > 1 ∧ intDigits.head? = some '0' then none
      else
        let afterInt := afterSign.drop intDigits.length
        let fracPart : List Char × List Char :=
          match afterInt with
          | '.' :: fr =>
              let frDigits := fr.takeWhile Char.isDigit
              if frDigits = [] then ([], afterInt)
              else ('.' :: frDigits, fr.drop frDigits.length)
          | _ => ([], afterInt)
        let startsDot : Bool :=
          match afterInt with
          | '.' :: _ => true
          | _ => false
        if fracPart.1 = [] ∧ startsDot = true then none
        else
          let afterFrac := fracPart.2
          let expPart : Option (List Char × List Char) :=
            match afterFrac with
            | e :: tail =>
                if e = 'e' ∨ e = 'E' then
                  let signTail : List Char × List Char :=
                    match tail with
                    | '+' :: t2 => (['+'], t2)
                    | '-' :: t2 => (['-'], t2)
                    | _ => ([], tail)
                  let eDigits := signTail.2.takeWhile Char.isDigit
                  if eDigits = [] then none
                  else some (e :: signTail.1 ++ eDigits,
                    signTail.2.drop eDigits.length)
                else some ([], afterFrac)
            | [] => some ([], afterFrac)
          match expPart with
          | none => none
          | some (expCs, rest) =>
              some (sign ++ intDigits ++ fracPart.1 ++ expCs, rest)

mutual

/-- Parse one JSON value (leading whitespace already skipped). -/
def parseJVal : Nat → List Char → Option (JVal × List Char)
  | 0, _ => none
  | fuel + 1, cs =>
      match cs with
      | [] => none
      | c :: rest =>
          if c = '{' then
            match skipJWs rest with
            | '}' :: rest2 => some (.obj [], rest2)
            | rest2 =>
                (parseJObjItems fuel rest2).map
                  (fun r => (.obj r.1, r.2))
          else if c = '[' then
            match skipJWs rest with
            | ']' :: rest2 => some (.arr [], rest2)
            | rest2 =>
                (parseJArrItems fuel rest2).map
                  (fun r => (.arr r.1, r.2))
          else if c = '"' then
            (parseJStringBody (rest.length + 1) rest).map
              (fun r => (.str (String.mk r.1), r.2))
          else
            match dropLit "true".data cs with
            | some r => some (.bool true, r)
            | none =>
            match dropLit "false".data cs with
            | some r => some (.bool false, r)
            | none =>
            match dropLit "null".data cs with
            | some r => some (.null, r)
            | none =>
            match dropLit "NaN".data cs with
            | some r => some (.num "NaN", r)
            | none =>
            match dropLit "Infinity".data cs with
            | some r => some (.num "Infinity", r)
            | none =>
            match dropLit "-Infinity".data cs with
            | some r => some (.num "-Infinity", r)
            | none =>
                (parseJNumber cs).map
                  (fun r => (.num (String.mk r.1), r.2))

/-- Parse the comma-separated items of a non-empty JSON array, up to and
including the closing bracket. -/
def parseJArrItems : Nat → List Char → Option (List JVal × List Char)
  | 0, _ => none
  | fuel + 1, cs =>
      match parseJVal fuel (skipJWs cs) with
      | none => none
      | some (v, rest) =>
          match skipJWs rest with
          | ',' :: rest2 =>
              (parseJArrItems fuel rest2).map
                (fun r => (v :: r.1, r.2))
          | ']' :: rest2 => some ([v], rest2)
          | _ => none

/-- Parse the members of a non-empty JSON object, up to and including
the closing brace. -/
def parseJObjItems : Nat → List Char → Option (List (String × JVal) × List Char)
  | 0, _ => none
  | fuel + 1, cs =>
      match skipJWs cs with
      | '"' :: rest =>
          match parseJStringBody (rest.length + 1) rest with
          | none => none
          | some (key, rest2) =>
              match skipJWs rest2 with
              | ':' :: rest3 =>
                  match parseJVal fuel (skipJWs rest3) with
                  | none => none
                  | some (v, rest4) =>
                      match skipJWs rest4 with
                      | ',' :: rest5 =>
                          (parseJObjItems fuel rest5).map
                            (fun r => ((String.mk key, v) :: r.1, r.2))
                      | '}' :: rest5 =>
                          some ([(String.mk key, v)], rest5)
                      | _ => none
              | _ => none
      | _ => none

end

/-- Embeds `json.loads`: parse one document and require only whitespace after
it; `none` models `json.JSONDecodeError`. -/
def jsonLoads (s : String) : Option JVal :=
  match parseJVal (2 * s.data.length + 2) (skipJWs s.data) with
  | some (v, rest) => if skipJWs rest = [] then some v else none
  | none => none

/-- Python `str.splitlines()` line boundary characters (beyond the
`\r\n` pair handled separately). -/
def isLineBreak (c : Char) : Bool :=
  c = '\n' || c = '\r' || c = '\x0b' || c = '\x0c' ||
    c = '\x1c' || c = '\x1d' || c = '\x1e' || c = '\x85' ||
    c = '\u2028' || c = '\u2029'

/-- Python `str.splitlines()` on character lists: split at every line boundary,
treating `\r\n` as a single boundary, with no trailing empty line. -/
def splitlinesAux (acc : List Char) : List Char → List (List Char)
  | [] => if acc = [] then [] else [acc.reverse]
  | '\r' :: '\n' :: rest => acc.reverse :: splitlinesAux [] rest
  | c :: rest =>
      if isLineBreak c then acc.reverse :: splitlinesAux [] rest
      else splitlinesAux (c :: acc) rest

/-- Python `str.splitlines()`. -/
def pySplitlines (s : String) : List String :=
  (splitlinesAux [] s.data).map String.mk

/-- The line-by-line fallback loop of `_load_scrapy_output`: strip each
line, skip blank lines, keep the values of lines that parse, skip lines
that raise. -/
def loadLinesLoop : List String → List JVal
  | [] => []
  | l :: rest =>
      let t := pyStripS l
      if t = "" then loadLinesLoop rest
      else
        match jsonLoads t with
        | some v => v :: loadLinesLoop rest
        | none => loadLinesLoop rest

/-- Embeds `app.scrape._load_scrapy_output` on the file content: the whole
document when it parses, otherwise the permissive line-delimited
fallback.  Total: no input raises. -/
def loadScrapyOutput (content : String) : JVal :=
  match jsonLoads content with
  | some v => v
  | none => JVal.arr (loadLinesLoop (pySplitlines content))

end App

end Scraper

namespace Scraper

namespace App

/-! ## The crawl attempt loop of `app.scrape` (lines 1062-1163)

The Scrapy subprocess is abstracted as a function from the attempt
number and its page budget to the list of products parsed from that
attempt's output file; everything after the output is loaded (the gate
loop, the attempt escalation, the shortfall computation) is embedded
directly. -/

/-- The page-budget escalation of line 1071:
`max_pages = 8 + (attempt - 1) * 4`. -/
def maxPagesForAttempt (attempt : Nat) : Nat :=
  8 + (attempt - 1) * 4

/-- The per-product gate loop of one attempt (lines 1118-1152): skip
products whose truthy link was already seen, skip invalid products,
record the link of an accepted product, append it, and break once the
target is reached. -/
def processProducts (num : Nat) :
    List (Option String) → List ProductC → List ProductC →
    List (Option String) × List ProductC
  | seen, collected, [] => (seen, collected)
  | seen, collected, p :: rest =>
      if truthyS p.link ∧ p.link ∈ seen then
        processProducts num seen collected rest
      else if ! product_is_valid p then
        processProducts num seen collected rest
      else
        let seen1 := if truthyS p.link then seen ++ [p.link] else seen
        let collected1 := collected ++ [p]
        if collected1.length ≥ num then (seen1, collected1)
        else processProducts num seen1 collected1 rest

/-- The observable outcome of the `while` loop: the final attempt
counter, the collected products, and the page budget passed to the
spider at each attempt. -/
structure RunResult where
  attempts : Nat
  collected : List ProductC
  budgets : List (Nat × Nat)
  deriving Repr, DecidableEq

/-- The attempt loop (lines 1062-1157).  The fuel is
`max_attempts - attempt`, so `attempt < max_attempts` is `fuel > 0`. -/
def scrapeLoopAux (fetch : Nat → Nat → List ProductC) (num : Nat) :
    Nat → Nat → List (Option String) → List ProductC → RunResult
  | 0, attempt, _, collected =>
      { attempts := attempt, collected := collected, budgets := [] }
  | fuel + 1, attempt, seen, collected =>
      if collected.length < num then
        let a := attempt + 1
        let pages := maxPagesForAttempt a
        let ps := fetch a pages
        let step := processProducts num seen collected ps
        let res := scrapeLoopAux fetch num fuel a step.1 step.2
        { attempts := res.attempts, collected := res.collected,
          budgets := (a, pages) :: res.budgets }
      else
        { attempts := attempt, collected := collected, budgets := [] }

/-- The whole attempt loop from its initial state
(`attempt = 0`, `collected = []`, `seen_links = set()`). -/
def scrapeRun (fetch : Nat → Nat → List ProductC)
    (num maxAttempts : Nat) : RunResult :=
  scrapeLoopAux fetch num maxAttempts 0 [] []

/-- Embeds `products = collected[:num_products]` (line 1159). -/
def finalProducts (num : Nat) (collected : List ProductC) :
    List ProductC :=
  collected.take num

/-- The `shortfall` response field (lines 1204-1205): present exactly
when fewer products than requested were returned. -/
def shortfallOf (num : Nat) (products : List ProductC) : Option Nat :=
  if products.length < num then some (num - products.length) else none

/-! ## Response assembly and the diagnostic fetch (lines 1166-1207) -/

/-- Does the diagnostic Playwright fetch run?  Only when nothing was
scraped or `debug=true` was requested (line 1170). -/
def debugFetchRuns (products : List ProductC) (debug : Bool) : Bool :=
  products.length = 0 || debug

/-- The pages fetched by the response-assembly code: the single
diagnostic page when the debug branch runs, none otherwise. -/
def fetchedPages (products : List ProductC) (debug : Bool)
    (debugHtml : String) : List String :=
  if debugFetchRuns products debug then [debugHtml] else []

/-- The fields of the JSON crawl response that depend on the scrape
outcome (lines 1197-1207): `captcha_detected` is present (and `true`)
exactly when the debug branch ran and flagged the diagnostic page. -/
structure ScrapeResponse where
  count : Nat
  products : List ProductC
  requested_count : Nat
  captcha_detected : Option Bool
  shortfall : Option Nat
  deriving Repr, DecidableEq

/-- Assemble the crawl response from the collected products, the debug
flag and the diagnostic page content. -/
def buildResponse (products : List ProductC) (num : Nat) (debug : Bool)
    (debugHtml : String) : ScrapeResponse :=
  let captcha := if debugFetchRuns products debug
                 then detect_captcha debugHtml else false
  { count := products.length,
    products := products,
    requested_count := num,
    captcha_detected := if captcha then some true else none,
    shortfall := shortfallOf num products }

end App

end Scraper


namespace Scraper

/-! ## Specification-side definitions and proof fixtures -/

/-- The explicit form of the Gate completeness invariant: all four
mandatory fields truthy, with the price a concrete rational inside the
configured band. -/
def GateOK (cfg : WalmartSpider.Cfg) (p : ProductC) : Prop :=
  truthyS p.name = true ∧ truthyS p.image = true ∧ truthyS p.link = true ∧
    ∃ q, p.price = some q ∧ q ≠ 0 ∧ cfg.min_price ≤ q ∧
      ∀ M, cfg.max_price = some M → q ≤ M

/-- The fixture for C10: a candidate whose only defect is a price of
exactly `0.0`. -/
def zeroPriceProduct (nm im lk : String) : ProductC :=
  { name := some nm, price := some 0, image := some im,
    images := [im], shipping := none, description := none,
    link := some lk, source := "dom_scrape" }

namespace App

/-- The concatenation, in attempt order, of everything the abstract
fetcher returns across `fuel` further attempts starting after
`attempt`, each invoked with its escalated page budget — the reference
sequence for the order-preservation statement. -/
def fetchedConcat (fetch : Nat → Nat → List ProductC) :
    Nat → Nat → List ProductC
  | _, 0 => []
  | attempt, fuel + 1 =>
      fetch (attempt + 1) (maxPagesForAttempt (attempt + 1)) ++
        fetchedConcat fetch (attempt + 1) fuel

end App

/-- Fixture: a fully-populated JSON item of the search page. -/
def exItem : WalmartSpider.JsonItem :=
  { typename := some "Product", canonicalUrl := some "/ip/1",
    name := some "Widget", priceInfoPrice := some (.num (mkRat 5 1)),
    image := some "https://i5.walmartimages.com/w.jpg",
    fulfillmentLabel := none, description := none }

/-- Fixture: default spider configuration (no price band, target 10). -/
def exCfg : WalmartSpider.Cfg :=
  { min_price := 0, max_price := none, num_products := 10, max_pages := 8 }

/-- Fixture: a fresh spider state. -/
def exSt : WalmartSpider.SpiderState :=
  { results_found := 0, seen_links := [] }

/-- Fixture: a spider state with one already-seen link. -/
def exSt2 : WalmartSpider.SpiderState :=
  { results_found := 1,
    seen_links := [some "https://www.walmart.com/ip/0"] }

/-- Fixture for the retry-termination scenario: the abstract fetcher
that returns exactly three valid unique items per attempt. -/
def c5Product (a i : Nat) : ProductC :=
  { name := some "Item", price := some (mkRat 5 1),
    image := some "https://i5.walmartimages.com/x.jpg",
    images := ["https://i5.walmartimages.com/x.jpg"],
    shipping := none, description := none,
    link := some ("https://www.walmart.com/ip/" ++ toString a ++ "-"
      ++ toString i),
    source := "json_extraction" }

/-- The three-unique-items-per-page fetcher of the retry-termination
scenario. -/
def c5Fetch (a : Nat) (_pages : Nat) : List ProductC :=
  [c5Product a 1, c5Product a 2, c5Product a 3]

end Scraper

namespace Scraper

/-! ## Helper lemmas about the validation gates -/

/-- A spider-valid product has all four mandatory fields truthy and an
allowed price. -/
theorem spider_valid_fields {cfg : WalmartSpider.Cfg} {p : ProductC}
    (h : WalmartSpider.is_valid_product cfg p = true) :
    truthyS p.name = true ∧ truthyP p.price = true ∧
      truthyS p.image = true ∧ truthyS p.link = true ∧
      WalmartSpider.is_price_allowed cfg p.price = true := by
  unfold WalmartSpider.is_valid_product at h
  by_cases hm : WalmartSpider.required_missing p = []
  · have hfields :
        truthyS p.name = true ∧ truthyP p.price = true ∧
          truthyS p.image = true ∧ truthyS p.link = true := by
      simpa [WalmartSpider.required_missing, fieldTruthy] using hm
    refine ⟨hfields.1, hfields.2.1, hfields.2.2.1, hfields.2.2.2, ?_⟩
    simpa [hm] using h
  · simp [hm] at h

/-- An allowed price is a concrete rational inside the configured band
(`none` as `max_price` is `float("inf")`). -/
theorem price_allowed_band {cfg : WalmartSpider.Cfg} {op : Option ℚ}
    (h : WalmartSpider.is_price_allowed cfg op = true) :
    ∃ q, op = some q ∧ cfg.min_price ≤ q ∧
      ∀ M, cfg.max_price = some M → q ≤ M := by
  cases op with
  | none => simp [WalmartSpider.is_price_allowed] at h
  | some q =>
      refine ⟨q, rfl, ?_, ?_⟩
      · cases hM : cfg.max_price with
        | none =>
            simpa [WalmartSpider.is_price_allowed, hM] using h
        | some M2 =>
            have h2 := h
            simp [WalmartSpider.is_price_allowed, hM] at h2
            exact h2.1
      · intro M hM
        have h2 := h
        simp [WalmartSpider.is_price_allowed, hM] at h2
        exact h2.2

/-- An app-valid product has all four mandatory fields truthy. -/
theorem app_valid_fields {p : ProductC}
    (h : App.product_is_valid p = true) :
    truthyS p.name = true ∧ truthyP p.price = true ∧
      truthyS p.image = true ∧ truthyS p.link = true := by
  unfold App.product_is_valid at h
  have hm : App.product_missing_fields p = [] := by
    cases he : App.product_missing_fields p with
    | nil => rfl
    | cons a l => rw [he] at h; simp at h
  simpa [App.product_missing_fields, fieldTruthy] using hm

end Scraper

namespace Scraper

/-! ## Claim theorems -/

/-- C3: the price parsing functions satisfy the spec's literal table:
`"$12.34" → 12.34`, `"Now $9.99" → 9.99`, the split dollars node `"10"`
with cents node `"29"` → `10.29`, `"current price $10.29 $12.99" →
10.29` (the labeled current price wins over the trailing strike-through
price), and the empty string yields `None`, never zero — for the spider
parser `_parse_price`, the interactive parser `_parse_price_value`, and
the split dollars/cents parse. -/
theorem priceTableHolds :
    spiderParsePrice "$12.34" = some (mkRat 1234 100)
  ∧ parsePriceValue "$12.34" = some (mkRat 1234 100)
  ∧ spiderParsePrice "Now $9.99" = some (mkRat 999 100)
  ∧ parsePriceValue "Now $9.99" = some (mkRat 999 100)
  ∧ splitPriceParse "10" "29" = some (mkRat 1029 100)
  ∧ spiderParsePrice "current price $10.29 $12.99" = some (mkRat 1029 100)
  ∧ parsePriceValue "current price $10.29 $12.99" = some (mkRat 1029 100)
  ∧ spiderParsePrice "" = none
  ∧ parsePriceValue "" = none
  ∧ spiderParsePrice "" ≠ some (0 : ℚ)
  ∧ parsePriceValue "" ≠ some (0 : ℚ) := by
  decide

/-- C4 counterexample: the spider's `_normalize_link` is a link
normalizer applied before dedup, yet it does not resolve the sponsored
tracking wrapper `"/sp/track?rd=%2Fip%2F123"` to the embedded product
URL — it merely prefixes the site origin. -/
theorem spiderTrackingLinkUnresolved :
    WalmartSpider.normalize_link (some "/sp/track?rd=%2Fip%2F123") =
      some "https://www.walmart.com/sp/track?rd=%2Fip%2F123"
  ∧ WalmartSpider.normalize_link (some "/sp/track?rd=%2Fip%2F123") ≠
      some "https://www.walmart.com/ip/123" := by
  decide

/-- C4 (amended): the interactive flow's `_normalize_product_link`
resolves relative paths against the site origin, resolves
`/sp/track?rd=...` sponsored wrappers to the embedded product URL, and
returns other links unchanged; the spider's `_normalize_link`, in
contrast, only prefixes the origin to relative links and returns
absolute (`http...`) links unchanged, without resolving tracking
wrappers. -/
theorem linkCanonicalizationHolds :
    (∀ l : String, startsWithS "http" l = true →
      WalmartSpider.normalize_link (some l) = some l)
  ∧ (∀ l : String, l ≠ "" → startsWithS "http" l = false →
      WalmartSpider.normalize_link (some l) =
        some ("https://www.walmart.com" ++ l))
  ∧ App.normalize_product_link (some "/ip/123") =
      some "https://www.walmart.com/ip/123"
  ∧ App.normalize_product_link (some "/sp/track?rd=%2Fip%2F123") =
      some "https://www.walmart.com/ip/123"
  ∧ App.normalize_product_link (some "https://example.org/a?b=c") =
      some "https://example.org/a?b=c" := by
  refine ⟨?_, ?_, by decide, by decide, by decide⟩
  · intro l hl
    have hne : l ≠ "" := by
      intro he
      rw [he] at hl
      simp [startsWithS, dropLit] at hl
    simp [WalmartSpider.normalize_link, hne, hl]
  · intro l hne hl
    simp [WalmartSpider.normalize_link, hne, hl]

/-- C4 amended-claim witness. -/
theorem linkCanonicalizationWitness :
    WalmartSpider.normalize_link (some "https://www.walmart.com/ip/9") =
      some "https://www.walmart.com/ip/9"
  ∧ WalmartSpider.normalize_link (some "/ip/9") =
      some "https://www.walmart.com/ip/9" := by
  constructor
  · exact linkCanonicalizationHolds.1 "https://www.walmart.com/ip/9" (by decide)
  · exact linkCanonicalizationHolds.2.1 "/ip/9" (by decide) (by decide)

/-- C8: `num_products` is clamped into `[1, 100]`, defaults to `10`
when the parameter is absent, and defaults to `10` when the parameter
does not parse as an integer. -/
theorem numProductsClamped :
    ∀ param : Option String,
      (1 ≤ App.numProductsOf param ∧ App.numProductsOf param ≤ 100)
    ∧ (param = none → App.numProductsOf param = 10)
    ∧ (∀ s, param = some s → parseIntPy s = none →
        App.numProductsOf param = 10) := by
  intro param
  refine ⟨?_, ?_, ?_⟩
  · cases param with
    | none => simp [App.numProductsOf]
    | some s =>
        by_cases hs : s = ""
        · simp [App.numProductsOf, hs]
        · cases hp : parseIntPy s with
          | none => simp [App.numProductsOf, hs, hp]
          | some n =>
              simp only [App.numProductsOf, hs, hp, if_neg hs]
              constructor
              · exact le_max_left 1 (min n 100)
              · exact max_le (by norm_num) (min_le_right n 100)
  · intro h
    subst h
    simp [App.numProductsOf]
  · intro s h hp
    subst h
    by_cases hs : s = ""
    · simp [App.numProductsOf, hs]
    · simp [App.numProductsOf, hs, hp]

/-- C8 witness. -/
theorem numProductsClampedWitness :
    (1 ≤ App.numProductsOf (some "banana") ∧
      App.numProductsOf (some "banana") ≤ 100)
  ∧ App.numProductsOf none = 10
  ∧ App.numProductsOf (some "banana") = 10 :=
  ⟨(numProductsClamped (some "banana")).1,
   (numProductsClamped none).2.1 rfl,
   (numProductsClamped (some "banana")).2.2 "banana" rfl (by decide)⟩

/-- C10: a candidate whose price is exactly `0.0` is reported as
missing its price by both gates (the truthiness test `not
product.get(field)` cannot tell `0.0` from absent) and is rejected by
both, even though every other mandatory field is present and `0.0`
would pass the configured price band. -/
theorem zeroPriceRejected :
    ∀ (cfg : WalmartSpider.Cfg) (nm im lk : String),
      nm ≠ "" → im ≠ "" → lk ≠ "" →
      WalmartSpider.is_price_allowed cfg (some 0) = true →
      WalmartSpider.required_missing (zeroPriceProduct nm im lk) = ["price"]
    ∧ WalmartSpider.is_valid_product cfg (zeroPriceProduct nm im lk) = false
    ∧ App.product_missing_fields (zeroPriceProduct nm im lk) = ["price"]
    ∧ App.product_is_valid (zeroPriceProduct nm im lk) = false := by
  intro cfg nm im lk hn hi hl _hband
  have hmiss : WalmartSpider.required_missing (zeroPriceProduct nm im lk) =
      ["price"] := by
    simp [WalmartSpider.required_missing, fieldTruthy, zeroPriceProduct,
      truthyS, truthyP, hn, hi, hl]
  refine ⟨hmiss, ?_, ?_, ?_⟩
  · simp [WalmartSpider.is_valid_product, hmiss]
  · simp [App.product_missing_fields, fieldTruthy, zeroPriceProduct,
      truthyS, truthyP, hn, hi, hl]
  · simp [App.product_is_valid, App.product_missing_fields, fieldTruthy,
      zeroPriceProduct, truthyS, truthyP, hn, hi, hl]

/-- C10 witness: the band `[0, 50]` admits `0.0`, yet the zero-priced
candidate is rejected by both gates with `price` reported missing. -/
theorem zeroPriceRejectedWitness :
    WalmartSpider.required_missing (zeroPriceProduct "a" "b" "c") = ["price"]
  ∧ WalmartSpider.is_valid_product
      { min_price := 0, max_price := some 50, num_products := 10,
        max_pages := 8 } (zeroPriceProduct "a" "b" "c") = false
  ∧ App.product_missing_fields (zeroPriceProduct "a" "b" "c") = ["price"]
  ∧ App.product_is_valid (zeroPriceProduct "a" "b" "c") = false := by
  have h := zeroPriceRejected
    { min_price := 0, max_price := some 50, num_products := 10,
      max_pages := 8 } "a" "b" "c"
    (by decide) (by decide) (by decide) (by decide)
  exact ⟨h.1, h.2.1, h.2.2.1, h.2.2.2⟩

end Scraper

namespace Scraper

/-- A spider-valid product satisfies the explicit gate invariant. -/
theorem valid_gateOK {cfg : WalmartSpider.Cfg} {p : ProductC}
    (h : WalmartSpider.is_valid_product cfg p = true) : GateOK cfg p := by
  obtain ⟨hn, hp, hi, hl, hband⟩ := spider_valid_fields h
  obtain ⟨q, hq, hmin, hmax⟩ := price_allowed_band hband
  refine ⟨hn, hi, hl, q, hq, ?_, hmin, hmax⟩
  rw [hq] at hp
  simpa [truthyP] using hp

/-- Every product emitted by the JSON path of `WalmartSpider.parse` was
accepted through `_is_valid_product`. -/
theorem processJsonItems_valid (cfg : WalmartSpider.Cfg) :
    ∀ (items : List WalmartSpider.JsonItem) (st : WalmartSpider.SpiderState)
      (p : ProductC), p ∈ (WalmartSpider.processJsonItems cfg st items).2 →
      WalmartSpider.is_valid_product cfg p = true := by
  intro items
  induction items with
  | nil =>
      intro st p hp
      simp [WalmartSpider.processJsonItems] at hp
  | cons item rest ih =>
      intro st p hp
      by_cases h1 : st.results_found ≥ cfg.num_products
      · simp [WalmartSpider.processJsonItems, h1] at hp
      · by_cases h2 : item.typename ≠ some "Product"
        · rw [WalmartSpider.processJsonItems] at hp
          simp only [if_neg h1, if_pos h2] at hp
          exact ih st p hp
        · by_cases h3 :
            WalmartSpider.normalize_link item.canonicalUrl ∈ st.seen_links
          · rw [WalmartSpider.processJsonItems] at hp
            simp only [if_neg h1, if_neg h2, if_pos h3] at hp
            exact ih st p hp
          · by_cases h4 : WalmartSpider.is_valid_product cfg
              (WalmartSpider.jsonToProduct item) = true
            · rw [WalmartSpider.processJsonItems] at hp
              simp only [if_neg h1, if_neg h2, if_neg h3, if_pos h4,
                List.mem_cons] at hp
              rcases hp with hp | hp
              · rw [hp]; exact h4
              · exact ih _ p hp
            · rw [WalmartSpider.processJsonItems] at hp
              simp only [if_neg h1, if_neg h2, if_neg h3, if_neg h4] at hp
              exact ih st p hp

end Scraper

namespace Scraper

/-- Every product emitted by the DOM path of `WalmartSpider.parse` was
accepted through `_is_valid_product`. -/
theorem processDomCards_valid (cfg : WalmartSpider.Cfg) :
    ∀ (cards : List WalmartSpider.DomCard) (st : WalmartSpider.SpiderState)
      (p : ProductC), p ∈ (WalmartSpider.processDomCards cfg st cards).2.1 →
      WalmartSpider.is_valid_product cfg p = true := by
  intro cards
  induction cards with
  | nil =>
      intro st p hp
      simp [WalmartSpider.processDomCards] at hp
  | cons card rest ih =>
      intro st p hp
      simp only [WalmartSpider.processDomCards] at hp
      split at hp
      · simp at hp
      · split at hp
        · exact ih st p hp
        · split at hp
          · exact ih st p hp
          · rename_i hvalid
            split at hp
            · exact ih st p hp
            · rename_i hvalid2
              simp only [List.mem_cons] at hp
              rcases hp with hp | hp
              · rw [hp]
                simpa using hvalid2
              · exact ih _ p hp

/-- The product emitted by `parse_product_detail`, when any, was
accepted through `_is_valid_product`, was not previously seen, and its
link is recorded exactly on acceptance. -/
theorem parse_product_detail_spec (cfg : WalmartSpider.Cfg)
    (st : WalmartSpider.SpiderState) (part : ProductC)
    (page : WalmartSpider.DetailPage) (p : ProductC)
    (hp : (WalmartSpider.parse_product_detail cfg st part page).2 = some p) :
    WalmartSpider.is_valid_product cfg p = true
  ∧ p.link ∉ st.seen_links
  ∧ (WalmartSpider.parse_product_detail cfg st part page).1.seen_links
      = st.seen_links ++ [p.link] := by
  unfold WalmartSpider.parse_product_detail at hp ⊢
  by_cases h1 : WalmartSpider.is_valid_product cfg
      (WalmartSpider.detailMerged part page) = true
  · by_cases h2 :
      (WalmartSpider.detailMerged part page).link ∈ st.seen_links
    · simp [h1, h2] at hp
    · simp only [h1, Bool.not_true, Bool.false_eq_true, if_false,
        if_neg h2] at hp ⊢
      have hpm : WalmartSpider.detailMerged part page = p := by
        simpa using hp
      rw [hpm] at h1 h2 ⊢
      exact ⟨h1, h2, rfl⟩
  · simp only [Bool.not_eq_true] at h1
    simp [h1] at hp

end Scraper

namespace Scraper

/-- The dedup bookkeeping of the JSON path of `WalmartSpider.parse`:
the final `seen_links` is the initial one extended by exactly the links
of the accepted products, no accepted link was seen before, the
accepted links are pairwise distinct, and the accepted sequence is a
sublist (in order) of the candidate sequence. -/
theorem processJsonItems_dedup (cfg : WalmartSpider.Cfg) :
    ∀ (items : List WalmartSpider.JsonItem) (st : WalmartSpider.SpiderState),
      ((WalmartSpider.processJsonItems cfg st items).1.seen_links
        = st.seen_links ++
            ((WalmartSpider.processJsonItems cfg st items).2.map ProductC.link))
    ∧ (∀ l, l ∈ ((WalmartSpider.processJsonItems cfg st items).2.map ProductC.link)
          → l ∉ st.seen_links)
    ∧ ((WalmartSpider.processJsonItems cfg st items).2.map ProductC.link).Nodup
    ∧ List.Sublist (WalmartSpider.processJsonItems cfg st items).2
        (items.map WalmartSpider.jsonToProduct) := by
  intro items
  induction items with
  | nil =>
      intro st
      simp [WalmartSpider.processJsonItems]
  | cons item rest ih =>
      intro st
      by_cases h1 : st.results_found ≥ cfg.num_products
      · simp [WalmartSpider.processJsonItems, h1]
      · by_cases h2 : item.typename ≠ some "Product"
        · simp only [WalmartSpider.processJsonItems, if_neg h1, if_pos h2]
          obtain ⟨hseen, hfresh, hnodup, hsub⟩ := ih st
          exact ⟨hseen, hfresh, hnodup, hsub.cons _⟩
        · by_cases h3 :
            WalmartSpider.normalize_link item.canonicalUrl ∈ st.seen_links
          · simp only [WalmartSpider.processJsonItems, if_neg h1, if_neg h2,
              if_pos h3]
            obtain ⟨hseen, hfresh, hnodup, hsub⟩ := ih st
            exact ⟨hseen, hfresh, hnodup, hsub.cons _⟩
          · by_cases h4 : WalmartSpider.is_valid_product cfg
                (WalmartSpider.jsonToProduct item) = true
            · simp only [WalmartSpider.processJsonItems, if_neg h1, if_neg h2,
                if_neg h3, if_pos h4]
              obtain ⟨hseen, hfresh, hnodup, hsub⟩ :=
                ih { results_found := st.results_found + 1,
                     seen_links := st.seen_links ++
                       [WalmartSpider.normalize_link item.canonicalUrl] }
              have hlink : (WalmartSpider.jsonToProduct item).link
                  = WalmartSpider.normalize_link item.canonicalUrl := rfl
              refine ⟨?_, ?_, ?_, hsub.cons₂ _⟩
              · simp only [List.map_cons, hlink, hseen]
                simp
              · intro l hl
                simp only [List.map_cons, hlink, List.mem_cons] at hl
                rcases hl with hl | hl
                · rw [hl]; exact h3
                · have := hfresh l hl
                  simp only [List.mem_append] at this
                  intro hmem
                  exact this (Or.inl hmem)
              · simp only [List.map_cons, hlink, List.nodup_cons]
                refine ⟨?_, hnodup⟩
                intro hmem
                have := hfresh _ hmem
                simp at this
            · simp only [WalmartSpider.processJsonItems, if_neg h1, if_neg h2,
                if_neg h3, if_neg h4]
              obtain ⟨hseen, hfresh, hnodup, hsub⟩ := ih st
              exact ⟨hseen, hfresh, hnodup, hsub.cons _⟩

end Scraper

namespace Scraper


/-- The gate loop of one attempt of `app.scrape`: the collected list is
extended, in input order, by a sublist of the attempt's products; the
seen set is extended by exactly the links of the newly accepted
products; no newly accepted link was seen before; the new links are
pairwise distinct; and every newly accepted product is app-valid. -/
theorem processProducts_dedup (num : Nat) :
    ∀ (ps : List ProductC) (seen : List (Option String))
      (collected : List ProductC),
      ∃ Δ : List ProductC,
        (App.processProducts num seen collected ps).2 = collected ++ Δ
      ∧ List.Sublist Δ ps
      ∧ (App.processProducts num seen collected ps).1
          = seen ++ Δ.map ProductC.link
      ∧ (∀ l, l ∈ Δ.map ProductC.link → l ∉ seen)
      ∧ (Δ.map ProductC.link).Nodup
      ∧ (∀ p, p ∈ Δ → App.product_is_valid p = true) := by
  intro ps
  induction ps with
  | nil =>
      intro seen collected
      exact ⟨[], by simp [App.processProducts], List.nil_sublist _,
        by simp [App.processProducts], by simp, by simp, by simp⟩
  | cons p rest ih =>
      intro seen collected
      by_cases h1 : truthyS p.link = true ∧ p.link ∈ seen
      · obtain ⟨Δ, hcol, hsub, hseen, hfresh, hnodup, hval⟩ := ih seen collected
        exact ⟨Δ, by simpa [App.processProducts, h1] using hcol, hsub.cons _,
          by simpa [App.processProducts, h1] using hseen, hfresh, hnodup, hval⟩
      · by_cases h2 : App.product_is_valid p = true
        · have hlink : truthyS p.link = true := (app_valid_fields h2).2.2.2
          have hnotseen : p.link ∉ seen := fun hmem => h1 ⟨hlink, hmem⟩
          by_cases h3 : (collected ++ [p]).length ≥ num
          · have h3l : num ≤ collected.length + 1 := by simpa using h3
            refine ⟨[p], ?_, ?_, ?_, ?_, ?_, ?_⟩
            · simp [App.processProducts, h1, h2, hlink, h3l, hnotseen]
            · exact (List.nil_sublist rest).cons₂ p
            · simp [App.processProducts, h1, h2, hlink, h3l, hnotseen]
            · intro l hl
              simp only [List.map_cons, List.map_nil, List.mem_singleton] at hl
              rw [hl]; exact hnotseen
            · simp
            · intro q hq
              simp only [List.mem_singleton] at hq
              rw [hq]; exact h2
          · obtain ⟨Δ, hcol, hsub, hseen, hfresh, hnodup, hval⟩ :=
              ih (seen ++ [p.link]) (collected ++ [p])
            refine ⟨p :: Δ, ?_, hsub.cons₂ p, ?_, ?_, ?_, ?_⟩
            · rw [App.processProducts]
              simp only [if_neg h1, h2, Bool.not_true, Bool.false_eq_true,
                if_false, if_pos hlink, if_neg h3]
              simpa using hcol
            · rw [App.processProducts]
              simp only [if_neg h1, h2, Bool.not_true, Bool.false_eq_true,
                if_false, if_pos hlink, if_neg h3]
              simpa using hseen
            · intro l hl
              simp only [List.map_cons, List.mem_cons] at hl
              rcases hl with hl | hl
              · rw [hl]; exact hnotseen
              · have := hfresh l hl
                simp only [List.mem_append] at this
                intro hmem
                exact this (Or.inl hmem)
            · simp only [List.map_cons, List.nodup_cons]
              refine ⟨?_, hnodup⟩
              intro hmem
              have := hfresh _ hmem
              simp at this
            · intro q hq
              rcases List.mem_cons.mp hq with hq | hq
              · rw [hq]; exact h2
              · exact hval q hq
        · obtain ⟨Δ, hcol, hsub, hseen, hfresh, hnodup, hval⟩ := ih seen collected
          have h2f : App.product_is_valid p = false := by
            simpa [Bool.not_eq_true] using h2
          exact ⟨Δ, by simpa [App.processProducts, h1, h2f] using hcol,
            hsub.cons _,
            by simpa [App.processProducts, h1, h2f] using hseen,
            hfresh, hnodup, hval⟩

end Scraper

namespace Scraper

/-- The attempt loop performs at most `fuel` further attempts. -/
theorem scrapeLoopAux_attempts (fetch : Nat → Nat → List ProductC)
    (num : Nat) :
    ∀ (fuel attempt : Nat) (seen : List (Option String))
      (collected : List ProductC),
      (App.scrapeLoopAux fetch num fuel attempt seen collected).attempts
        ≤ attempt + fuel := by
  intro fuel
  induction fuel with
  | zero =>
      intro attempt seen collected
      simp [App.scrapeLoopAux]
  | succ fuel ih =>
      intro attempt seen collected
      rw [App.scrapeLoopAux]
      split
      · have := ih (attempt + 1)
          (App.processProducts num seen collected
            (fetch (attempt + 1) (App.maxPagesForAttempt (attempt + 1)))).1
          (App.processProducts num seen collected
            (fetch (attempt + 1) (App.maxPagesForAttempt (attempt + 1)))).2
        calc (App.scrapeLoopAux fetch num fuel (attempt + 1) _ _).attempts
            ≤ attempt + 1 + fuel := this
          _ = attempt + (fuel + 1) := by omega
      · simp

/-- Every page budget recorded by the attempt loop follows the
escalation rule of line 1071. -/
theorem scrapeLoopAux_budgets (fetch : Nat → Nat → List ProductC)
    (num : Nat) :
    ∀ (fuel attempt : Nat) (seen : List (Option String))
      (collected : List ProductC) (pr : Nat × Nat),
      pr ∈ (App.scrapeLoopAux fetch num fuel attempt seen collected).budgets →
      pr.2 = App.maxPagesForAttempt pr.1 := by
  intro fuel
  induction fuel with
  | zero =>
      intro attempt seen collected pr hpr
      simp [App.scrapeLoopAux] at hpr
  | succ fuel ih =>
      intro attempt seen collected pr hpr
      rw [App.scrapeLoopAux] at hpr
      split at hpr
      · simp only [List.mem_cons] at hpr
        rcases hpr with hpr | hpr
        · rw [hpr]
        · exact ih _ _ _ pr hpr
      · simp at hpr

/-- Across the whole attempt loop: the collected list only grows, the
newly collected part is a sublist (in order) of the concatenation of
the attempts' fetched products, and the collected links remain pairwise
distinct if all collected links are also recorded in `seen`. -/
theorem scrapeLoopAux_collected (fetch : Nat → Nat → List ProductC)
    (num : Nat) :
    ∀ (fuel attempt : Nat) (seen : List (Option String))
      (collected : List ProductC),
      (collected.map ProductC.link).Nodup →
      (∀ p, p ∈ collected → p.link ∈ seen) →
      ∃ Δ : List ProductC,
        (App.scrapeLoopAux fetch num fuel attempt seen collected).collected
          = collected ++ Δ
      ∧ List.Sublist Δ (App.fetchedConcat fetch attempt fuel)
      ∧ (((App.scrapeLoopAux fetch num fuel attempt seen collected).collected).map
          ProductC.link).Nodup := by
  intro fuel
  induction fuel with
  | zero =>
      intro attempt seen collected hnd _hsub
      exact ⟨[], by simp [App.scrapeLoopAux], List.nil_sublist _,
        by simpa [App.scrapeLoopAux] using hnd⟩
  | succ fuel ih =>
      intro attempt seen collected hnd hseen
      rw [App.scrapeLoopAux]
      split
      · obtain ⟨Δ₁, hcol1, hsub1, hseen1, hfresh1, hnd1, _hval1⟩ :=
          processProducts_dedup num
            (fetch (attempt + 1) (App.maxPagesForAttempt (attempt + 1)))
            seen collected
        have hndNew : (((collected ++ Δ₁).map ProductC.link)).Nodup := by
          rw [List.map_append]
          refine List.Nodup.append hnd hnd1 ?_
          intro l hl1 hl2
          obtain ⟨p, hp, hple⟩ := List.mem_map.mp hl1
          exact hfresh1 l hl2 (hple ▸ hseen p hp)
        have hseenNew : ∀ p, p ∈ collected ++ Δ₁ →
            p.link ∈ seen ++ Δ₁.map ProductC.link := by
          intro p hp
          rcases List.mem_append.mp hp with hp | hp
          · exact List.mem_append_left _ (hseen p hp)
          · exact List.mem_append_right _ (List.mem_map_of_mem _ hp)
        obtain ⟨Δ₂, hcol2, hsub2, hnd2⟩ :=
          ih (attempt + 1)
            (App.processProducts num seen collected
              (fetch (attempt + 1) (App.maxPagesForAttempt (attempt + 1)))).1
            (App.processProducts num seen collected
              (fetch (attempt + 1) (App.maxPagesForAttempt (attempt + 1)))).2
            (by rw [hcol1]; exact hndNew)
            (by
              rw [hcol1, hseen1]
              exact hseenNew)
        rw [hcol1] at hcol2 hnd2
        refine ⟨Δ₁ ++ Δ₂, ?_, hsub1.append hsub2, ?_⟩
        · simp only [hcol1, hcol2, List.append_assoc]
        · simp only [hcol1, hnd2]
      · exact ⟨[], by simp, List.nil_sublist _, by simpa using hnd⟩

end Scraper

namespace Scraper

/-- C1: every product emitted (accepted) by the spider's `parse` (JSON
path and DOM path) or `parse_product_detail`, for any response contents
and any configured price band, has `name`, `price`, `image` and `link`
present and non-empty, and its price lies within
`[min_price, max_price]`. -/
theorem gateCompleteness :
    (∀ (cfg : WalmartSpider.Cfg) (st : WalmartSpider.SpiderState)
       (items : List WalmartSpider.JsonItem) (p : ProductC),
       p ∈ (WalmartSpider.processJsonItems cfg st items).2 → GateOK cfg p)
  ∧ (∀ (cfg : WalmartSpider.Cfg) (st : WalmartSpider.SpiderState)
       (cards : List WalmartSpider.DomCard) (p : ProductC),
       p ∈ (WalmartSpider.processDomCards cfg st cards).2.1 → GateOK cfg p)
  ∧ (∀ (cfg : WalmartSpider.Cfg) (st : WalmartSpider.SpiderState)
       (part : ProductC) (page : WalmartSpider.DetailPage) (p : ProductC),
       (WalmartSpider.parse_product_detail cfg st part page).2 = some p →
       GateOK cfg p) := by
  refine ⟨?_, ?_, ?_⟩
  · intro cfg st items p hp
    exact valid_gateOK (processJsonItems_valid cfg items st p hp)
  · intro cfg st cards p hp
    exact valid_gateOK (processDomCards_valid cfg cards st p hp)
  · intro cfg st part page p hp
    exact valid_gateOK (parse_product_detail_spec cfg st part page p hp).1

/-- C1 witness: a concrete accepted product, shown to satisfy the gate
invariant by the theorem. -/
theorem gateCompletenessWitness :
    WalmartSpider.jsonToProduct exItem
      ∈ (WalmartSpider.processJsonItems exCfg exSt [exItem]).2
  ∧ GateOK exCfg (WalmartSpider.jsonToProduct exItem) := by
  have hmem : WalmartSpider.jsonToProduct exItem
      ∈ (WalmartSpider.processJsonItems exCfg exSt [exItem]).2 := by decide
  exact ⟨hmem, gateCompleteness.1 exCfg exSt [exItem] _ hmem⟩

/-- C2: within a crawl run no two accepted records share a canonical
link — a candidate whose link is already in `seen_links` is skipped and
the link is recorded exactly on acceptance — and the accepted sequence
preserves first-accepted order (it is an order-preserving sublist of
the candidate sequence); this holds for the spider's JSON parse loop,
for `parse_product_detail`, and for the app-level attempt loop across
a whole run. -/
theorem dedupOrderHolds :
    (∀ (cfg : WalmartSpider.Cfg) (items : List WalmartSpider.JsonItem)
       (st : WalmartSpider.SpiderState),
       ((WalmartSpider.processJsonItems cfg st items).1.seen_links
         = st.seen_links ++
             ((WalmartSpider.processJsonItems cfg st items).2.map ProductC.link))
     ∧ (∀ l, l ∈ ((WalmartSpider.processJsonItems cfg st items).2.map ProductC.link)
           → l ∉ st.seen_links)
     ∧ ((WalmartSpider.processJsonItems cfg st items).2.map ProductC.link).Nodup
     ∧ List.Sublist (WalmartSpider.processJsonItems cfg st items).2
         (items.map WalmartSpider.jsonToProduct))
  ∧ (∀ (cfg : WalmartSpider.Cfg) (st : WalmartSpider.SpiderState)
       (part : ProductC) (page : WalmartSpider.DetailPage) (p : ProductC),
       (WalmartSpider.parse_product_detail cfg st part page).2 = some p →
       p.link ∉ st.seen_links ∧
       (WalmartSpider.parse_product_detail cfg st part page).1.seen_links
         = st.seen_links ++ [p.link])
  ∧ (∀ (fetch : Nat → Nat → List ProductC) (num ma : Nat),
       ((App.scrapeRun fetch num ma).collected.map ProductC.link).Nodup
     ∧ List.Sublist (App.scrapeRun fetch num ma).collected
         (App.fetchedConcat fetch 0 ma)) := by
  refine ⟨?_, ?_, ?_⟩
  · intro cfg items st
    exact processJsonItems_dedup cfg items st
  · intro cfg st part page p hp
    exact ⟨(parse_product_detail_spec cfg st part page p hp).2.1,
      (parse_product_detail_spec cfg st part page p hp).2.2⟩
  · intro fetch num ma
    obtain ⟨Δ, hcol, hsub, hnd⟩ :=
      scrapeLoopAux_collected fetch num ma 0 [] [] (by simp) (by simp)
    refine ⟨hnd, ?_⟩
    have : (App.scrapeRun fetch num ma).collected = Δ := by
      simpa [App.scrapeRun] using hcol
    rw [this]
    exact hsub

/-- C2 witness: on a concrete run the accepted link is recorded in
`seen_links` and was not previously seen. -/
theorem dedupOrderWitness :
    ((WalmartSpider.processJsonItems exCfg exSt2 [exItem]).1.seen_links
      = exSt2.seen_links ++
          ((WalmartSpider.processJsonItems exCfg exSt2 [exItem]).2.map
            ProductC.link))
  ∧ (WalmartSpider.jsonToProduct exItem).link ∉ exSt2.seen_links := by
  refine ⟨(dedupOrderHolds.1 exCfg [exItem] exSt2).1, ?_⟩
  exact (dedupOrderHolds.1 exCfg [exItem] exSt2).2.1
    (WalmartSpider.jsonToProduct exItem).link (by decide)

/-- C5: the attempt loop always terminates within `max_attempts`
attempts, and on the spec's scenario — target 10, 3 attempts, a fetcher
returning exactly 3 valid unique items per page — it stops after
exhausting the 3 attempts with 9 products and reports
`shortfall = 1`. -/
theorem retryTermination :
    (∀ (fetch : Nat → Nat → List ProductC) (num ma : Nat),
       (App.scrapeRun fetch num ma).attempts ≤ ma)
  ∧ (App.scrapeRun c5Fetch 10 3).attempts = 3
  ∧ (App.finalProducts 10 (App.scrapeRun c5Fetch 10 3).collected).length = 9
  ∧ App.shortfallOf 10
      (App.finalProducts 10 (App.scrapeRun c5Fetch 10 3).collected)
      = some 1 := by
  refine ⟨?_, by decide, by decide, by decide⟩
  intro fetch num ma
  simpa using scrapeLoopAux_attempts fetch num ma 0 [] []

/-- C6: the page budget passed to the spider at attempt `k` is
`8 + 4 * (k - 1)`, the run performs at most 3 attempts, and within an
attempt the spider issues no next-page request once the current page
number reaches `max_pages`. -/
theorem pageBudgetEscalation :
    (∀ k, App.maxPagesForAttempt k = 8 + 4 * (k - 1))
  ∧ (∀ (fetch : Nat → Nat → List ProductC) (num : Nat),
       (App.scrapeRun fetch num 3).attempts ≤ 3)
  ∧ (∀ (fetch : Nat → Nat → List ProductC) (num ma : Nat) (pr : Nat × Nat),
       pr ∈ (App.scrapeRun fetch num ma).budgets →
       pr.2 = 8 + 4 * (pr.1 - 1))
  ∧ (∀ (resultsFound numProducts : Nat) (pageNumber : Int)
       (maxPages : Nat) (nextHref : Option String) (searchTerm url : String),
       pageNumber ≥ (maxPages : Int) →
       WalmartSpider.maybe_schedule_next_page resultsFound numProducts
         pageNumber maxPages nextHref searchTerm url = none) := by
  refine ⟨?_, ?_, ?_, ?_⟩
  · intro k
    simp [App.maxPagesForAttempt, Nat.mul_comm]
  · intro fetch num
    simpa using scrapeLoopAux_attempts fetch num 3 0 [] []
  · intro fetch num ma pr hpr
    have := scrapeLoopAux_budgets fetch num ma 0 [] [] pr hpr
    rw [this]
    simp [App.maxPagesForAttempt, Nat.mul_comm]
  · intro resultsFound numProducts pageNumber maxPages nextHref searchTerm
      url h
    unfold WalmartSpider.maybe_schedule_next_page
    by_cases h1 : resultsFound ≥ numProducts
    · rw [if_pos h1]
    · rw [if_neg h1, if_pos h]

/-- C6 witness: the concrete run records page budget 8 at attempt 1,
and a spider already at its page budget schedules no next page. -/
theorem pageBudgetEscalationWitness :
    ((1, 8) : Nat × Nat).2 = 8 + 4 * (((1, 8) : Nat × Nat).1 - 1)
  ∧ WalmartSpider.maybe_schedule_next_page 0 10 8 8 none "laptop"
      "https://www.walmart.com/search?q=laptop&page=8" = none := by
  refine ⟨?_, ?_⟩
  · exact pageBudgetEscalation.2.2.1 c5Fetch 10 3 (1, 8) (by decide)
  · exact pageBudgetEscalation.2.2.2 0 10 8 8 none "laptop"
      "https://www.walmart.com/search?q=laptop&page=8" (by decide)

/-- C7: every page fetched by the response-assembly flow whose HTML
contains the phrase "are you a robot" (in any letter case) is
classified as blocked by the anti-bot detector; detection does not
alter the extracted products or the count, and the crawl response sets
`captcha_detected = true`. -/
theorem blockedPageAdvisory :
    ∀ (products : List ProductC) (num : Nat) (debug : Bool)
      (html page : String),
      page ∈ App.fetchedPages products debug html →
      containsSubS "are you a robot" (pyLower page) = true →
      App.detect_captcha page = true
    ∧ (App.buildResponse products num debug html).captcha_detected = some true
    ∧ (App.buildResponse products num debug html).products = products
    ∧ (App.buildResponse products num debug html).count = products.length := by
  intro products num debug html page hmem hsub
  have hrun : App.debugFetchRuns products debug = true ∧ page = html := by
    by_cases h : App.debugFetchRuns products debug = true
    · refine ⟨h, ?_⟩
      rw [App.fetchedPages, if_pos h] at hmem
      simpa using hmem
    · rw [App.fetchedPages, if_neg h] at hmem
      simp at hmem
  have hne : page ≠ "" := by
    intro he
    rw [he] at hsub
    exact absurd hsub (by decide)
  have hdet : App.detect_captcha page = true := by
    unfold App.detect_captcha
    rw [if_neg hne]
    refine List.any_eq_true.mpr ⟨"are you a robot", ?_, hsub⟩
    simp [App.captchaChecks]
  obtain ⟨hr, hpg⟩ := hrun
  rw [hpg] at hdet
  refine ⟨hpg ▸ hdet, ?_, rfl, rfl⟩
  simp [App.buildResponse, hr, hdet]

/-- C7 witness: an upper-case blocked page through the concrete
zero-products run. -/
theorem blockedPageAdvisoryWitness :
    App.detect_captcha "ARE YOU A ROBOT?" = true
  ∧ (App.buildResponse [] 10 false "ARE YOU A ROBOT?").captcha_detected
      = some true := by
  have h := blockedPageAdvisory [] 10 false "ARE YOU A ROBOT?"
    "ARE YOU A ROBOT?" (by decide) (by decide)
  exact ⟨h.1, h.2.1⟩

/-- The fallback loop of `_load_scrapy_output` returns exactly the
parses of the non-blank stripped lines, in file order. -/
theorem loadLinesLoop_eq :
    ∀ ls : List String,
      App.loadLinesLoop ls =
        (((ls.map pyStripS).filter (fun t => t ≠ "")).filterMap
          App.jsonLoads) := by
  intro ls
  induction ls with
  | nil => simp [App.loadLinesLoop]
  | cons l rest ih =>
      by_cases ht : pyStripS l = ""
      · simp [App.loadLinesLoop, ht, ih]
      · cases hj : App.jsonLoads (pyStripS l) with
        | none => simp [App.loadLinesLoop, ht, hj, ih]
        | some v => simp [App.loadLinesLoop, ht, hj, ih]

/-- C9: loading the scrape output never fails on malformed content —
whenever the whole file is not a single valid JSON document, the loader
returns the list of per-line JSON values in file order, skipping blank
and unparseable lines. -/
theorem malformedOutputRecovered :
    ∀ content : String,
      App.jsonLoads content = none →
      App.loadScrapyOutput content =
        App.JVal.arr ((((App.pySplitlines content).map pyStripS).filter
          (fun t => t ≠ "")).filterMap App.jsonLoads) := by
  intro content h
  unfold App.loadScrapyOutput
  rw [h]
  rw [loadLinesLoop_eq]

/-- C9 witness: a concrete malformed stream (valid first and last
lines, an unparseable middle line, a blank line) recovered by the
fallback. -/
theorem malformedOutputWitness :
    App.jsonLoads "[1, 2]\nnope\n\n[3]" = none
  ∧ App.loadScrapyOutput "[1, 2]\nnope\n\n[3]" =
      App.JVal.arr ((((App.pySplitlines "[1, 2]\nnope\n\n[3]").map
        pyStripS).filter (fun t => t ≠ "")).filterMap App.jsonLoads) :=
  ⟨by rfl, malformedOutputRecovered "[1, 2]\nnope\n\n[3]" (by rfl)⟩

end Scraper
